import Mathlib

/-!
A shallow embedding of the `ruls` directory-listing utility (src/main.rs) in
Lean 4, together with theorems settling the specification claims.

Modelling conventions:
* File and path names are Lean `String`s.  `OsString` comparison in the source
  is byte-wise over the UTF-8 encoding; since UTF-8 byte order coincides with
  code-point order on valid UTF-8, we compare names code-point-wise
  (`cmp_name`).  Non-UTF-8 names are outside the model.
* `std::fs::Metadata` becomes the `Metadata` structure below; the modification
  time (`SystemTime`) is modelled at second granularity as `Option Int`
  (seconds relative to the Unix epoch; `none` = `metadata.modified()` errors).
* Fallible filesystem calls return `Option`/`Except Unit`; `io::Result` in the
  source.  Rust functions that return `io::Result` but only ever produce `Ok`
  (`format_long`, `format_name`, `mk_item_from_path`, `print_items`) are
  modelled as total functions.
* The filesystem seen by one run is a tree of `FsNode`s; the ambient
  environment (`FsEnv`) resolves top-level paths to nodes and carries the
  `read_link` outcomes, the current time and the chrono time renderer.
-/

/-- The command-line `--color` mode (`enum ColorWhen`). -/
inductive ColorWhen where
  | auto
  | always
  | never
deriving DecidableEq, Repr

/-- The parsed command-line options (`struct Args`). -/
structure Args where
  all : Bool
  almost_all : Bool
  long : Bool
  human_readable : Bool
  recursive : Bool
  reverse : Bool
  sort_time : Bool
  sort_size : Bool
  one_per_line : Bool
  classify : Bool
  dirs_first : Bool
  color : ColorWhen
  paths : List String
deriving Repr, DecidableEq

/-- The metadata snapshot of one filesystem object, as captured by
`fs::symlink_metadata` (the non-following stat): file type, size in bytes,
modification time (seconds since the Unix epoch, `none` when unavailable),
permission bits, hard-link count, owner and group ids (the unix branch of the
source's cfg-conditional accessors). -/
structure Metadata where
  is_dir : Bool
  is_symlink : Bool
  len : Nat
  modified : Option Int
  mode : Nat
  nlink : Nat
  uid : Nat
  gid : Nat
deriving DecidableEq, Repr

/-- One listed entry (`struct Item`). -/
structure Item where
  path : String
  file_name : String
  meta : Metadata
  is_symlink : Bool
deriving Repr, DecidableEq

/-- One filesystem object as the run can observe it.  `bad` is an object on
which `fs::symlink_metadata` fails.  `ok meta contents` is an object whose
stat succeeds; `contents` is what `fs::read_dir` would yield on it (`none` =
the read fails, which is always the case for non-directories), each child
keyed by its base name. -/
inductive FsNode where
  | bad : FsNode
  | ok (meta : Metadata) (contents : Option (List (String × FsNode))) : FsNode

/-- Result of `fs::symlink_metadata` on a node. -/
def statNode : FsNode → Option Metadata
  | .bad => none
  | .ok m _ => some m

/-- Result of `fs::read_dir` on a node. -/
def readDir : FsNode → Option (List (String × FsNode))
  | .bad => none
  | .ok _ c => c

/-- Code-point-wise (equivalently, for valid UTF-8, byte-wise) lexicographic
comparison of names: the model of `OsString::cmp` in `compare_items`. -/
def cmp_name : List Char → List Char → Ordering
  | [], [] => .eq
  | [], _ :: _ => .lt
  | _ :: _, [] => .gt
  | a :: as, b :: bs => (compare a.toNat b.toNat).then (cmp_name as bs)

/-- `fn mtime`: seconds since the Unix epoch of the modification time;
`duration_since(UNIX_EPOCH)` fails on pre-epoch times and the whole chain
falls back to `0` (`unwrap_or(0)`), as it does when `modified()` itself
errs. -/
def mtime (meta : Metadata) : Nat :=
  ((meta.modified.bind fun t => if t < 0 then none else some t.toNat)).getD 0

/-- `fn should_include`: the dotfile filter applied to a directory entry's
base name. -/
def should_include (name : String) (args : Args) : Bool :=
  let is_dot := name.toList.head? == some ('.')
  if !is_dot then
    true
  else if args.all then
    true
  else if args.almost_all then
    name != ("." : String) && name != (".." : String)
  else
    false

/-- `fn compare_items`: the sort comparator.  Early `return`s of the source
appear as the `match` short-circuits. -/
def compare_items (a b : Item) (args : Args) : Ordering :=
  let afterDirs :=
    if args.sort_size then
      match compare b.meta.len a.meta.len with
      | .eq => cmp_name a.file_name.toList b.file_name.toList
      | ord => ord
    else if args.sort_time then
      match compare (mtime b.meta) (mtime a.meta) with
      | .eq => cmp_name a.file_name.toList b.file_name.toList
      | ord => ord
    else
      cmp_name a.file_name.toList b.file_name.toList
  if args.dirs_first then
    match a.meta.is_dir, b.meta.is_dir with
    | true, false => .lt
    | false, true => .gt
    | _, _ => afterDirs
  else
    afterDirs

/-- `fn sort_items`: a stable sort by `compare_items` (`slice::sort_by`),
then a whole-list reversal when `--reverse` is set. -/
def sort_items (items : List Item) (args : Args) : List Item :=
  let sorted := items.mergeSort fun a b => !(compare_items a b args == Ordering.gt)
  if args.reverse then sorted.reverse else sorted

/-- `fn format_permissions` (unix branch): the 10-character permission
string. -/
def format_permissions (meta : Metadata) : String :=
  let file_type : Char := if meta.is_dir then 'd' else if meta.is_symlink then 'l' else '-'
  let bits : List (Bool × Char) :=
    [((meta.mode &&& 0o400) != 0, 'r'), ((meta.mode &&& 0o200) != 0, 'w'),
     ((meta.mode &&& 0o100) != 0, 'x'), ((meta.mode &&& 0o040) != 0, 'r'),
     ((meta.mode &&& 0o020) != 0, 'w'), ((meta.mode &&& 0o010) != 0, 'x'),
     ((meta.mode &&& 0o004) != 0, 'r'), ((meta.mode &&& 0o002) != 0, 'w'),
     ((meta.mode &&& 0o001) != 0, 'x')]
  String.mk (file_type :: bits.map fun p => if p.1 then p.2 else '-')

/-- `fn is_executable` (unix branch): any execute bit set, and not a
directory. -/
def is_executable (meta : Metadata) : Bool :=
  ((meta.mode &&& 0o111) != 0) && !meta.is_dir

/-- `fn format_nlink` (unix branch). -/
def format_nlink (meta : Metadata) : String :=
  toString meta.nlink

/-- `fn format_owner` (unix branch). -/
def format_owner (meta : Metadata) : String :=
  toString meta.uid

/-- `fn format_group` (unix branch). -/
def format_group (meta : Metadata) : String :=
  toString meta.gid

/-- Modelled from the spec: the `humansize` crate's `format_size(n, DECIMAL)`
call in `fn format_size_field` — human-readable byte formatting is declared
out of scope by the spec (§1), so a plain decimal 1000-based magnitude-suffix
rendering stands in for the crate.  No claim depends on its exact output. -/
def human_size (n : Nat) : String :=
  let units := [(" kB"), (" MB"), (" GB"), (" TB"), (" PB"), (" EB")]
  if n < 1000 then toString n ++ (" B")
  else
    let k := min units.length (Nat.log 1000 n)
    let unit := units.getD (k - 1) (" EB")
    let scaled := n * 100 / 1000 ^ k
    toString (scaled / 100) ++ (".") ++ toString (scaled % 100) ++ unit

/-- `fn format_size_field`. -/
def format_size_field (it : Item) (args : Args) : String :=
  if args.human_readable then human_size it.meta.len else toString it.meta.len

/-- `fn format_mtime`, with the chrono rendering of a timestamp to the local
"%b %e %H:%M" form abstracted as the parameter `render`, and `Local::now()`
as `now`: the displayed time is the modification time when `modified()`
succeeds and the current time otherwise. -/
def format_mtime (render : Int → String) (now : Int) (meta : Metadata) : String :=
  render (meta.modified.getD now)

/-- Modelled from the spec: the color directive the out-of-scope color
library (`owo_colors`) wraps a name in.  No claim depends on the directive
bytes. -/
def color_wrap (code : Nat) (s : String) : String :=
  ("\x1b[") ++ toString code ++ ("m") ++ s ++ ("\x1b[0m")

/-- `fn colorize_name`: blue directories, cyan symlinks, green executables,
everything else unwrapped. -/
def colorize_name (it : Item) (name : String) : String :=
  if it.meta.is_dir then color_wrap 34 name
  else if it.is_symlink then color_wrap 36 name
  else if is_executable it.meta then color_wrap 32 name
  else name

/-- `fn classify_suffix`: the `-F` type indicator. -/
def classify_suffix (it : Item) : String :=
  if it.meta.is_dir then ("/")
  else if it.is_symlink then ("@")
  else if is_executable it.meta then ("*")
  else ("")

/-- `fn format_name`. -/
def format_name (it : Item) (args : Args) (use_color : Bool) : String :=
  let base := it.file_name
  let s := if use_color then colorize_name it base else base
  if args.classify then s ++ classify_suffix it else s

/-- Right-alignment to a minimum width in characters: Rust format spec
`{value:>w}`, as used in `fn format_long`. -/
def pad_left (w : Nat) (s : String) : String :=
  String.mk (List.replicate (w - s.length) ' ') ++ s

/-- Left-alignment to a minimum width in characters: Rust format spec
`{value:<w}`. -/
def pad_right (w : Nat) (s : String) : String :=
  s ++ String.mk (List.replicate (w - s.length) ' ')

/-- The ambient run environment: top-level path resolution, the per-path
`fs::read_link` outcome (`none` = the call fails), the current time and the
chrono time renderer. -/
structure FsEnv where
  fs : String → FsNode
  read_link : String → Option String
  now : Int
  render_time : Int → String

/-- `fn format_long`: the long-format line.  The source returns
`io::Result<String>` but every path returns `Ok`. -/
def format_long (env : FsEnv) (it : Item) (args : Args) (use_color : Bool) : String :=
  let perms := format_permissions it.meta
  let nlink := format_nlink it.meta
  let owner := format_owner it.meta
  let group := format_group it.meta
  let size := format_size_field it args
  let time := format_mtime env.render_time env.now it.meta
  let name := format_name it args use_color
  let link_part :=
    if it.is_symlink then
      match env.read_link it.path with
      | some target => (" -> ") ++ target
      | none => ("")
    else ("")
  perms ++ (" ") ++ pad_left 2 nlink ++ (" ") ++ pad_right 8 owner ++ (" ") ++
    pad_right 8 group ++ (" ") ++ pad_left 8 size ++ (" ") ++ time ++ (" ") ++
    name ++ link_part

/-- `fn print_items`: renders already-sorted items to output lines (each list
element is one line written to stdout). -/
def print_items (env : FsEnv) (items : List Item) (args : Args) (use_color : Bool) :
    List String :=
  if items.isEmpty then []
  else if args.long then items.map fun it => format_long env it args use_color
  else if args.one_per_line then items.map fun it => format_name it args use_color
  else [String.intercalate ("  ") (items.map fun it => format_name it args use_color)]

/-- `fn mk_item_from_entry`, after its `fs::symlink_metadata` call has
succeeded with `meta`; `entry.path()` is the parent directory joined with the
entry's base name. -/
def mk_item_from_entry (dir : String) (name : String) (meta : Metadata) : Item :=
  { path := dir ++ ("/") ++ name, file_name := name, meta := meta,
    is_symlink := meta.is_symlink }

/-- `Path::file_name` composed with the `unwrap_or_else` fallback of
`fn mk_item_from_path`: the last meaningful path component, or the whole path
when there is none or the last component is the parent marker.  Faithful for
the plain relative paths the model uses. -/
def path_file_name (p : String) : String :=
  let comps := ((p.toList.splitOn ('/')).map String.mk).filter fun s =>
    s != ("") && s != (".")
  match comps.getLast? with
  | some s => if s == ("..") then p else s
  | none => p

/-- `fn mk_item_from_path` (always returns `Ok` in the source). -/
def mk_item_from_path (p : String) (meta : Metadata) : Item :=
  { path := p, file_name := path_file_name p, meta := meta,
    is_symlink := meta.is_symlink }

/-- The entry loop of `fn list_dir`: filter by `should_include`, then stat
each kept entry (`mk_item_from_entry`); a failing stat aborts the listing
through `?`. -/
def collect_items (dir : String) (entries : List (String × FsNode)) (args : Args) :
    Except Unit (List Item) :=
  match entries with
  | [] => .ok []
  | e :: rest =>
    if should_include e.1 args then
      match statNode e.2 with
      | none => .error ()
      | some m => do
        let restItems ← collect_items dir rest args
        .ok (mk_item_from_entry dir e.1 m :: restItems)
    else collect_items dir rest args

/-- `fn list_dir`: read the directory, filter and stat the entries, sort,
render. -/
def list_dir (env : FsEnv) (dir : String) (node : FsNode) (args : Args)
    (use_color : Bool) : Except Unit (List String) :=
  match readDir node with
  | none => .error ()
  | some entries => do
    let items ← collect_items dir entries args
    .ok (print_items env (sort_items items args) args use_color)

mutual

/-- The directory sequence that `WalkDir::new(p).follow_links(false)` yields
after `filter_map(Result::ok)` and the `is_dir` filter in `fn list_recursive`:
a pre-order walk of the statable directory nodes; erroneous entries (failed
stat, failed child read) simply disappear from the iterator. -/
def walkDirs (p : String) : FsNode → List (String × FsNode)
  | .bad => []
  | .ok m c =>
    if m.is_dir then
      (p, FsNode.ok m c) ::
        (match c with
         | none => []
         | some l => walkChildren p l)
    else []

/-- Companion of `walkDirs`: walks a directory's children in order. -/
def walkChildren (p : String) : List (String × FsNode) → List (String × FsNode)
  | [] => []
  | e :: rest => walkDirs (p ++ ("/") ++ e.1) e.2 ++ walkChildren p rest

end

/-- The per-directory loop of `fn list_recursive`: a blank separator before
every directory but the first, then the `<dir>:` header, then the listing. -/
def list_dirs_loop (env : FsEnv) (dirs : List (String × FsNode)) (args : Args)
    (use_color : Bool) (first : Bool) : Except Unit (List String) :=
  match dirs with
  | [] => .ok []
  | d :: rest => do
    let out ← list_dir env d.1 d.2 args use_color
    let restOut ← list_dirs_loop env rest args use_color false
    .ok ((if first then [] else [("")]) ++ [d.1 ++ (":")] ++ out ++ restOut)

/-- `fn list_recursive`.  When the top-level stat fails (`if let Ok(m)` does
not match) the source falls through to the WalkDir loop, which then yields
nothing. -/
def list_recursive (env : FsEnv) (p : String) (args : Args) (use_color : Bool) :
    Except Unit (List String) :=
  match statNode (env.fs p) with
  | some m =>
    if !m.is_dir then
      .ok (print_items env [mk_item_from_path p m] args use_color)
    else
      list_dirs_loop env (walkDirs p (env.fs p)) args use_color true
  | none => list_dirs_loop env (walkDirs p (env.fs p)) args use_color true

/-- `fn list_single_dir_or_file`: the top-level stat failure propagates via
`?`. -/
def list_single_dir_or_file (env : FsEnv) (p : String) (args : Args)
    (use_color : Bool) : Except Unit (List String) :=
  match statNode (env.fs p) with
  | none => .error ()
  | some m =>
    if m.is_dir then list_dir env p (env.fs p) args use_color
    else .ok (print_items env [mk_item_from_path p m] args use_color)

/-- The `use_color` computation in `fn main`: `--color` resolved against
whether stdout is a terminal. -/
def resolve_color (args : Args) (istty : Bool) : Bool :=
  match args.color with
  | .always => true
  | .never => false
  | .auto => istty

/-- The per-path body of the loop in `fn main`. -/
def process_path (env : FsEnv) (p : String) (args : Args) (use_color : Bool) :
    Except Unit (List String) :=
  if args.recursive then list_recursive env p args use_color
  else list_single_dir_or_file env p args use_color

/-- The path loop of `fn main`: a blank separator before every path but the
first, a `<path>:` header when more than one path was given, then the path's
listing; the first `Err` aborts the loop through `?`. -/
def run_paths (env : FsEnv) (ps : List String) (args : Args) (use_color : Bool)
    (multiple : Bool) (i : Nat) : Except Unit (List String) :=
  match ps with
  | [] => .ok []
  | p :: rest => do
    let body ← process_path env p args use_color
    let restOut ← run_paths env rest args use_color multiple (i + 1)
    .ok ((if i > 0 then [("")] else []) ++ (if multiple then [p ++ (":")] else []) ++
      body ++ restOut)

/-- `fn main`, as a function from the environment, tty-ness and the parsed
arguments to the run outcome: `.ok lines` is a zero exit status with `lines`
on stdout, `.error ()` is a non-zero exit status (the `io::Result` propagated
out of `main`). -/
def main_run (env : FsEnv) (args : Args) (istty : Bool) : Except Unit (List String) :=
  let use_color := resolve_color args istty
  let multiple := args.paths.length > 1
  run_paths env args.paths args use_color multiple 0

/-- Spec §4.2 step 1, transcribed from the spec's words for comparison with
the source's `compare_items`: the directories-first pre-key ranks directories
before non-directories. -/
def dir_rank (it : Item) : Nat :=
  if it.meta.is_dir then 0 else 1

/-- Spec §4.2 step 1 as a comparator: consulted only when dirs-first is
enabled. -/
def cmp_dirs (args : Args) (a b : Item) : Ordering :=
  if args.dirs_first then compare (dir_rank a) (dir_rank b) else .eq

/-- Spec §4.2 steps 2–3 as a comparator: the single active primary key —
size descending when sort-by-size is set, else time descending when
sort-by-time is set, else nothing. -/
def cmp_key (args : Args) (a b : Item) : Ordering :=
  if args.sort_size then compare b.meta.len a.meta.len
  else if args.sort_time then compare (mtime b.meta) (mtime a.meta)
  else .eq

/-- Spec §4.2 steps 1–4 as one lexicographic chain: the dirs-first pre-key,
then the single active primary key, then the byte-wise name tiebreak. -/
def cmp_chain (args : Args) (a b : Item) : Ordering :=
  (cmp_dirs args a b).then
    ((cmp_key args a b).then (cmp_name a.file_name.toList b.file_name.toList))

/-! ### Concrete inputs used by witnesses and counterexamples -/

/-- A baseline option set with every flag off. -/
def argsOff : Args :=
  { all := false, almost_all := false, long := false, human_readable := false,
    recursive := false, reverse := false, sort_time := false, sort_size := false,
    one_per_line := false, classify := false, dirs_first := false,
    color := ColorWhen.never, paths := [] }

/-- Metadata of a plain 50-byte file. -/
def metaFile : Metadata :=
  { is_dir := false, is_symlink := false, len := 50, modified := some 5,
    mode := 0o644, nlink := 1, uid := 1000, gid := 100 }

/-- Metadata of a directory. -/
def metaDir : Metadata :=
  { is_dir := true, is_symlink := false, len := 4096, modified := some 9,
    mode := 0o755, nlink := 2, uid := 1000, gid := 100 }

/-- Metadata of a symlink whose execute bits are all set. -/
def metaLink : Metadata :=
  { is_dir := false, is_symlink := true, len := 7, modified := some 5,
    mode := 0o777, nlink := 1, uid := 0, gid := 0 }

/-- A plain-file item. -/
def itemFileA : Item :=
  { path := ("a.txt"), file_name := ("a.txt"), meta := metaFile,
    is_symlink := false }

/-- A directory item. -/
def itemDirB : Item :=
  { path := ("sub"), file_name := ("sub"), meta := metaDir, is_symlink := false }

/-- A symlink item (non-directory, execute bits set). -/
def itemLnk : Item :=
  { path := ("lnk"), file_name := ("lnk"), meta := metaLink, is_symlink := true }

/-- An executable regular-file item. -/
def itemExe : Item :=
  { path := ("run"), file_name := ("run"),
    meta := { metaFile with mode := 0o755 }, is_symlink := false }

/-- A concrete environment: path `x` cannot be statted, `y` is a plain file,
`d` is a directory whose contents cannot be read, `e` is a directory with one
entry (`f`) whose individual stat fails, and `lnk` has a readable symlink
target. -/
def exEnv : FsEnv :=
  { fs := fun p =>
      if p == ("y") then FsNode.ok metaFile none
      else if p == ("d") then FsNode.ok metaDir none
      else if p == ("e") then FsNode.ok metaDir (some [(("f"), FsNode.bad)])
      else FsNode.bad,
    read_link := fun p => if p == ("lnk") then some ("target") else none,
    now := 100,
    render_time := fun t => toString t }

/-- Non-recursive run over `x` then `y`. -/
def exArgsNonrec : Args :=
  { argsOff with paths := [("x"), ("y")] }

/-- Recursive run over `x` then `y`. -/
def exArgsRec : Args :=
  { argsOff with recursive := true, paths := [("x"), ("y")] }

/-- Directories-first with reverse. -/
def exArgsDFRev : Args :=
  { argsOff with dirs_first := true, reverse := true }

/-- Directories-first without reverse. -/
def exArgsDF : Args :=
  { argsOff with dirs_first := true }

/-- Sort-by-time only. -/
def exArgsTime : Args :=
  { argsOff with sort_time := true }

/-- An item whose modification time is 3 seconds before the epoch. -/
def itemPreA : Item :=
  { path := ("pre"), file_name := ("pre"),
    meta := { metaFile with modified := some (-3) }, is_symlink := false }

/-- An item whose modification time is unavailable. -/
def itemNoneB : Item :=
  { path := ("unk"), file_name := ("unk"),
    meta := { metaFile with modified := none }, is_symlink := false }

/-- A symlink item whose target cannot be read in `exEnv`. -/
def itemLnkBad : Item :=
  { path := ("broken"), file_name := ("broken"), meta := metaLink,
    is_symlink := true }

/-! ### Ordering helper lemmas -/

theorem then_swap (x y : Ordering) : (x.then y).swap = (x.swap).then y.swap := by
  cases x <;> cases y <;> rfl

theorem then_ne_gt {x y : Ordering} :
    x.then y ≠ .gt ↔ x = .lt ∨ (x = .eq ∧ y ≠ .gt) := by
  cases x <;> cases y <;> simp [Ordering.then]

theorem then_eq_eq {x y : Ordering} : x.then y = .eq ↔ x = .eq ∧ y = .eq := by
  cases x <;> cases y <;> simp [Ordering.then]

theorem nat_compare_swap (m n : Nat) : compare n m = (compare m n).swap := by
  rcases Nat.lt_trichotomy m n with h | h | h
  · rw [Nat.compare_eq_lt.mpr h, Nat.compare_eq_gt.mpr h]
    rfl
  · rw [Nat.compare_eq_eq.mpr h, Nat.compare_eq_eq.mpr h.symm]
    rfl
  · rw [Nat.compare_eq_gt.mpr h, Nat.compare_eq_lt.mpr h]
    rfl

theorem nat_compare_ne_gt {m n : Nat} : compare m n ≠ .gt ↔ m ≤ n := by
  rw [Ne, Nat.compare_eq_gt]
  omega

/-- The laws of a comparator induced by keys into a linear order:
antisymmetry under argument swap, transitivity of "not greater", and the fact
that along two "not greater" steps whose endpoints compare equal, each step
compares equal.  Exactly what lexicographic composition and the sortedness of
`mergeSort` need. -/
structure CmpLaws {α : Type} (cmp : α → α → Ordering) : Prop where
  swap_eq : ∀ a b, cmp b a = (cmp a b).swap
  le_trans : ∀ a b c, cmp a b ≠ .gt → cmp b c ≠ .gt → cmp a c ≠ .gt
  eq_split : ∀ a b c, cmp a b ≠ .gt → cmp b c ≠ .gt → cmp a c = .eq →
    cmp a b = .eq ∧ cmp b c = .eq

theorem cmpLaws_const_eq {α : Type} : CmpLaws (fun _ _ : α => Ordering.eq) :=
  { swap_eq := fun _ _ => rfl
    le_trans := fun _ _ _ _ h => h
    eq_split := fun _ _ _ _ _ _ => ⟨rfl, rfl⟩ }

theorem cmpLaws_key {α : Type} (k : α → Nat) :
    CmpLaws fun a b => compare (k a) (k b) := by
  constructor
  · intro a b
    exact nat_compare_swap (k a) (k b)
  · intro a b c h1 h2
    rw [nat_compare_ne_gt] at h1 h2 ⊢
    omega
  · intro a b c h1 h2 h3
    rw [nat_compare_ne_gt] at h1 h2
    rw [Nat.compare_eq_eq] at h3
    constructor <;> rw [Nat.compare_eq_eq] <;> omega

theorem cmpLaws_key_rev {α : Type} (k : α → Nat) :
    CmpLaws fun a b => compare (k b) (k a) := by
  constructor
  · intro a b
    exact nat_compare_swap (k b) (k a)
  · intro a b c h1 h2
    rw [nat_compare_ne_gt] at h1 h2 ⊢
    omega
  · intro a b c h1 h2 h3
    rw [nat_compare_ne_gt] at h1 h2
    rw [Nat.compare_eq_eq] at h3
    constructor <;> rw [Nat.compare_eq_eq] <;> omega

theorem cmpLaws_comap {α β : Type} {cmp : β → β → Ordering} (hc : CmpLaws cmp)
    (h : α → β) : CmpLaws fun a b => cmp (h a) (h b) :=
  { swap_eq := fun a b => hc.swap_eq (h a) (h b)
    le_trans := fun a b c => hc.le_trans (h a) (h b) (h c)
    eq_split := fun a b c => hc.eq_split (h a) (h b) (h c) }

theorem cmpLaws_then {α : Type} {f g : α → α → Ordering} (hf : CmpLaws f)
    (hg : CmpLaws g) : CmpLaws fun a b => (f a b).then (g a b) := by
  constructor
  · intro a b
    rw [hf.swap_eq a b, hg.swap_eq a b, then_swap]
  · intro a b c h1 h2
    rw [then_ne_gt] at h1 h2 ⊢
    have hfab : f a b ≠ .gt := by rcases h1 with h | ⟨h, _⟩ <;> simp [h]
    have hfbc : f b c ≠ .gt := by rcases h2 with h | ⟨h, _⟩ <;> simp [h]
    have hfac : f a c ≠ .gt := hf.le_trans a b c hfab hfbc
    cases hc : f a c with
    | lt => exact Or.inl rfl
    | gt => exact absurd hc hfac
    | eq =>
      obtain ⟨e1, e2⟩ := hf.eq_split a b c hfab hfbc hc
      rcases h1 with h1 | ⟨_, h1r⟩
      · rw [h1] at e1
        exact absurd e1 (by simp)
      · rcases h2 with h2 | ⟨_, h2r⟩
        · rw [h2] at e2
          exact absurd e2 (by simp)
        · exact Or.inr ⟨rfl, hg.le_trans a b c h1r h2r⟩
  · intro a b c h1 h2 h3
    rw [then_ne_gt] at h1 h2
    rw [then_eq_eq] at h3 ⊢
    rw [then_eq_eq]
    obtain ⟨h3f, h3g⟩ := h3
    have hfab : f a b ≠ .gt := by rcases h1 with h | ⟨h, _⟩ <;> simp [h]
    have hfbc : f b c ≠ .gt := by rcases h2 with h | ⟨h, _⟩ <;> simp [h]
    obtain ⟨e1, e2⟩ := hf.eq_split a b c hfab hfbc h3f
    rcases h1 with h1 | ⟨_, h1r⟩
    · rw [h1] at e1
      exact absurd e1 (by simp)
    rcases h2 with h2 | ⟨_, h2r⟩
    · rw [h2] at e2
      exact absurd e2 (by simp)
    obtain ⟨g1, g2⟩ := hg.eq_split a b c h1r h2r h3g
    exact ⟨⟨e1, g1⟩, ⟨e2, g2⟩⟩

/-! ### Laws of the name comparator -/

theorem cmp_name_swap (a : List Char) : ∀ b, cmp_name b a = (cmp_name a b).swap := by
  induction a with
  | nil =>
    intro b
    cases b <;> rfl
  | cons x xs ih =>
    intro b
    cases b with
    | nil => rfl
    | cons y ys =>
      show (compare y.toNat x.toNat).then (cmp_name ys xs) = _
      rw [show cmp_name (x :: xs) (y :: ys) =
            (compare x.toNat y.toNat).then (cmp_name xs ys) from rfl,
        then_swap, ← nat_compare_swap, ← ih ys]

theorem cmp_name_le_trans :
    ∀ a b c : List Char, cmp_name a b ≠ .gt → cmp_name b c ≠ .gt →
      cmp_name a c ≠ .gt := by
  intro a
  induction a with
  | nil =>
    intro b c _ _
    cases c <;> simp [cmp_name]
  | cons x xs ih =>
    intro b c h1 h2
    cases b with
    | nil => exact absurd rfl h1
    | cons y ys =>
      cases c with
      | nil => exact absurd rfl h2
      | cons z zs =>
        rw [show cmp_name (x :: xs) (y :: ys) =
              (compare x.toNat y.toNat).then (cmp_name xs ys) from rfl,
          then_ne_gt] at h1
        rw [show cmp_name (y :: ys) (z :: zs) =
              (compare y.toNat z.toNat).then (cmp_name ys zs) from rfl,
          then_ne_gt] at h2
        rw [show cmp_name (x :: xs) (z :: zs) =
              (compare x.toNat z.toNat).then (cmp_name xs zs) from rfl,
          then_ne_gt]
        simp only [Nat.compare_eq_lt, Nat.compare_eq_eq] at h1 h2 ⊢
        rcases h1 with h1 | ⟨h1e, h1r⟩
        · rcases h2 with h2 | ⟨h2e, h2r⟩
          · exact Or.inl (by omega)
          · exact Or.inl (by omega)
        · rcases h2 with h2 | ⟨h2e, h2r⟩
          · exact Or.inl (by omega)
          · exact Or.inr ⟨by omega, ih ys zs h1r h2r⟩

theorem cmp_name_eq_split :
    ∀ a b c : List Char, cmp_name a b ≠ .gt → cmp_name b c ≠ .gt →
      cmp_name a c = .eq → cmp_name a b = .eq ∧ cmp_name b c = .eq := by
  intro a
  induction a with
  | nil =>
    intro b c h1 h2 h3
    cases c with
    | nil =>
      cases b with
      | nil => exact ⟨rfl, rfl⟩
      | cons y ys => exact absurd rfl h2
    | cons z zs => simp [cmp_name] at h3
  | cons x xs ih =>
    intro b c h1 h2 h3
    cases b with
    | nil => exact absurd rfl h1
    | cons y ys =>
      cases c with
      | nil => exact absurd rfl h2
      | cons z zs =>
        rw [show cmp_name (x :: xs) (y :: ys) =
              (compare x.toNat y.toNat).then (cmp_name xs ys) from rfl,
          then_ne_gt] at h1
        rw [show cmp_name (y :: ys) (z :: zs) =
              (compare y.toNat z.toNat).then (cmp_name ys zs) from rfl,
          then_ne_gt] at h2
        rw [show cmp_name (x :: xs) (z :: zs) =
              (compare x.toNat z.toNat).then (cmp_name xs zs) from rfl,
          then_eq_eq] at h3
        rw [show cmp_name (x :: xs) (y :: ys) =
              (compare x.toNat y.toNat).then (cmp_name xs ys) from rfl,
          then_eq_eq]
        rw [show cmp_name (y :: ys) (z :: zs) =
              (compare y.toNat z.toNat).then (cmp_name ys zs) from rfl,
          then_eq_eq]
        obtain ⟨h3e, h3r⟩ := h3
        simp only [Nat.compare_eq_lt, Nat.compare_eq_eq] at h1 h2 h3e ⊢
        rcases h1 with h1 | ⟨h1e, h1r⟩
        · rcases h2 with h2 | ⟨h2e, h2r⟩ <;> omega
        · rcases h2 with h2 | ⟨h2e, h2r⟩
          · omega
          · obtain ⟨r1, r2⟩ := ih ys zs h1r h2r h3r
            exact ⟨⟨by omega, r1⟩, ⟨by omega, r2⟩⟩

theorem cmp_name_laws : CmpLaws cmp_name :=
  { swap_eq := fun a b => cmp_name_swap a b
    le_trans := cmp_name_le_trans
    eq_split := cmp_name_eq_split }

/-! ### The comparator as a lexicographic chain, and its laws -/

theorem nat_compare_zero_one : compare (0 : Nat) 1 = Ordering.lt := by decide

theorem nat_compare_one_zero : compare (1 : Nat) 0 = Ordering.gt := by decide

theorem nat_compare_zero_zero : compare (0 : Nat) 0 = Ordering.eq := by decide

theorem nat_compare_one_one : compare (1 : Nat) 1 = Ordering.eq := by decide

theorem compare_items_eq_chain (args : Args) (a b : Item) :
    compare_items a b args = cmp_chain args a b := by
  unfold compare_items cmp_chain cmp_dirs cmp_key dir_rank
  cases hd : args.dirs_first <;>
    cases hs : args.sort_size <;>
      cases ht : args.sort_time <;>
        cases ha : a.meta.is_dir <;>
          cases hb : b.meta.is_dir <;>
            simp only [Bool.false_eq_true, if_false, if_true, Ordering.then,
              nat_compare_zero_one, nat_compare_one_zero, nat_compare_zero_zero,
              nat_compare_one_one] <;>
              first
                | rfl
                | (cases hc : compare b.meta.len a.meta.len <;>
                    simp [hc, Ordering.then, nat_compare_zero_zero,
                      nat_compare_one_one] <;> done)
                | (cases hc : compare (mtime b.meta) (mtime a.meta) <;>
                    simp [hc, Ordering.then, nat_compare_zero_zero,
                      nat_compare_one_one] <;> done)

theorem compare_items_laws (args : Args) :
    CmpLaws fun a b => compare_items a b args := by
  have hchain : CmpLaws (cmp_chain args) := by
    unfold cmp_chain
    refine cmpLaws_then ?_ (cmpLaws_then ?_ ?_)
    · unfold cmp_dirs
      cases hd : args.dirs_first
      · simpa using cmpLaws_const_eq
      · simpa using cmpLaws_key dir_rank
    · unfold cmp_key
      cases hs : args.sort_size
      · cases ht : args.sort_time
        · simpa using cmpLaws_const_eq
        · simpa using cmpLaws_key_rev fun it : Item => mtime it.meta
      · simpa using cmpLaws_key_rev fun it : Item => it.meta.len
    · exact cmpLaws_comap cmp_name_laws fun it : Item => it.file_name.toList
  have he : (fun a b => compare_items a b args) = cmp_chain args := by
    funext a b
    exact compare_items_eq_chain args a b
  rw [he]
  exact hchain

/-! ### Sortedness of `sort_items` -/

theorem le_bool_iff (x : Ordering) : (!(x == Ordering.gt)) = true ↔ x ≠ .gt := by
  cases x <;> decide

theorem mergeSort_compare_items_pairwise (items : List Item) (args : Args) :
    (items.mergeSort fun a b => !(compare_items a b args == Ordering.gt)).Pairwise
      fun a b => compare_items a b args ≠ .gt := by
  have laws := compare_items_laws args
  have h := @List.sorted_mergeSort Item
    (fun a b => !(compare_items a b args == Ordering.gt))
    (fun a b c h1 h2 => by
      rw [le_bool_iff] at h1 h2 ⊢
      exact laws.le_trans a b c h1 h2)
    (fun a b => by
      simp only [Bool.or_eq_true, le_bool_iff]
      by_cases h : compare_items a b args = Ordering.gt
      · refine Or.inr ?_
        have hsw := laws.swap_eq a b
        rw [h] at hsw
        rw [hsw]
        decide
      · exact Or.inl h)
    items
  exact h.imp fun hab => (le_bool_iff _).mp hab

/-! ### Error-propagation lemmas for the traversal driver -/

theorem statNode_eq_none_iff {node : FsNode} : statNode node = none ↔ node = .bad := by
  cases node <;> simp [statNode]

theorem except_error_bind {α β : Type} (f : α → Except Unit β) :
    (Except.error () >>= f) = Except.error () := rfl

theorem except_ok_bind {α β : Type} (a : α) (f : α → Except Unit β) :
    (Except.ok a >>= f) = f a := rfl

theorem collect_items_error {dir name : String} {child : FsNode} {args : Args} :
    ∀ {entries : List (String × FsNode)}, (name, child) ∈ entries →
      should_include name args = true → statNode child = none →
      collect_items dir entries args = .error () := by
  intro entries
  induction entries with
  | nil => intro h; cases h
  | cons e rest ih =>
    intro hmem hinc hstat
    rcases List.mem_cons.mp hmem with heq | hmem'
    · rw [collect_items, ← heq]
      simp [hinc, hstat]
    · rw [collect_items]
      by_cases h : should_include e.1 args = true
      · cases hs : statNode e.2 with
        | none => simp [h, hs]
        | some m => simp [h, hs, ih hmem' hinc hstat, except_error_bind]
      · simp only [Bool.not_eq_true] at h
        simp [h, ih hmem' hinc hstat]

theorem list_dir_read_error {env : FsEnv} {dir : String} {node : FsNode}
    {args : Args} {uc : Bool} (h : readDir node = none) :
    list_dir env dir node args uc = .error () := by
  rw [list_dir, h]

theorem list_dir_entry_error {env : FsEnv} {dir name : String} {node child : FsNode}
    {args : Args} {uc : Bool} {entries : List (String × FsNode)}
    (hread : readDir node = some entries) (hmem : (name, child) ∈ entries)
    (hinc : should_include name args = true) (hstat : statNode child = none) :
    list_dir env dir node args uc = .error () := by
  rw [list_dir, hread]
  simp [collect_items_error hmem hinc hstat, except_error_bind]

theorem run_paths_error {env : FsEnv} {args : Args} {uc mult : Bool} {p : String} :
    ∀ (ps : List String) (i : Nat), p ∈ ps →
      process_path env p args uc = .error () →
      run_paths env ps args uc mult i = .error () := by
  intro ps
  induction ps with
  | nil =>
    intro i h
    cases h
  | cons q rest ih =>
    intro i hmem herr
    rcases List.mem_cons.mp hmem with heq | hmem'
    · rw [run_paths, ← heq]
      simp [herr, except_error_bind]
    · rw [run_paths]
      cases hq : process_path env q args uc with
      | error e =>
        cases e
        simp [hq, except_error_bind]
      | ok out =>
        simp [hq, ih (i + 1) hmem' herr, except_error_bind, except_ok_bind]

theorem main_run_error {env : FsEnv} {args : Args} {istty : Bool} {p : String}
    (hmem : p ∈ args.paths)
    (herr : process_path env p args (resolve_color args istty) = .error ()) :
    main_run env args istty = .error () := by
  rw [main_run]
  exact run_paths_error args.paths 0 hmem herr

/-! ### Claims -/

/-- C3: for every pair of entries and every option set, the comparator equals
the lexicographic chain "dirs-first pre-key (when enabled), then exactly one
active primary key — size descending when sort-by-size, else time descending
when sort-by-time, else nothing — then ascending byte-wise comparison of the
raw base name as fallback and final tiebreak" (`cmp_chain`); moreover with
sort-by-size set the result never depends on the sort-by-time flag, i.e. size
takes precedence over time when both are supplied. -/
theorem claim_c3_comparator_keys (args : Args) (a b : Item) :
    compare_items a b args = cmp_chain args a b ∧
    compare_items a b { args with sort_size := true } =
      compare_items a b { args with sort_size := true, sort_time := false } :=
  ⟨compare_items_eq_chain args a b, rfl⟩

/-- C4: sorting with reverse enabled is exactly the element-wise reversal of
sorting the same collection with the same options and reverse disabled — the
reversal is a final pass over the fully ordered sequence, not a change to the
individual key comparisons. -/
theorem claim_c4_reverse_mirror (args : Args) (items : List Item) :
    sort_items items { args with reverse := true } =
      (sort_items items { args with reverse := false }).reverse := rfl

/-- C5: the Entry Filter is a pure function of (name, options): a name is
included iff it does not start with `.`, or show-all is set (admitting every
name, including the literal `.` and `..`), or show-almost-all is set and the
name is neither the literal `.` nor `..`; with neither flag set every name
starting with `.` is excluded. -/
theorem claim_c5_filter (name : String) (args : Args) :
    should_include name args =
      (!(name.toList.head? == some ('.')) || args.all ||
        (args.almost_all && (name != ("." : String) && name != (".." : String)))) := by
  unfold should_include
  cases h1 : name.toList.head? == some ('.') <;>
    cases h2 : args.all <;>
      cases h3 : args.almost_all <;>
        simp [h1, h2, h3]

/-- C7: for an entry whose modification time cannot be read, the displayed
timestamp is the rendering of the current local time while the sort key is 0
(epoch start); both functions are total on such entries (no abort, no
logging channel exists in either). -/
theorem claim_c7_mtime_fallback (meta : Metadata) (render : Int → String)
    (now : Int) (h : meta.modified = none) :
    format_mtime render now meta = render now ∧ mtime meta = 0 := by
  constructor
  · rw [format_mtime, h]
    rfl
  · rw [mtime, h]
    rfl

/-- Witness for C7 at a concrete metadata value with unreadable mtime. -/
theorem claim_c7_mtime_fallback_witness :
    ({ metaFile with modified := none } : Metadata).modified = none ∧
    format_mtime (fun t => toString t) 77 { metaFile with modified := none } =
      toString (77 : Int) ∧
    mtime { metaFile with modified := none } = 0 := by
  have h := claim_c7_mtime_fallback { metaFile with modified := none }
    (fun t => toString t) 77 rfl
  exact ⟨rfl, h.1, h.2⟩

/-- C9: the classify suffix follows the fixed precedence directory, then
symlink, then executable: a directory gets `/` whatever its permission bits,
a non-directory symlink gets `@` even when execute bits are set, exactly the
non-directory non-symlink entries with some execute bit get `*`, and every
other entry gets the empty suffix. -/
theorem claim_c9_classify (it : Item) :
    (it.meta.is_dir = true → classify_suffix it = ("/")) ∧
    (it.meta.is_dir = false → it.is_symlink = true → classify_suffix it = ("@")) ∧
    (it.meta.is_dir = false → it.is_symlink = false →
      it.meta.mode &&& 0o111 ≠ 0 → classify_suffix it = ("*")) ∧
    (it.meta.is_dir = false → it.is_symlink = false →
      it.meta.mode &&& 0o111 = 0 → classify_suffix it = ("")) ∧
    (classify_suffix it = ("*") →
      it.meta.is_dir = false ∧ it.is_symlink = false ∧
        it.meta.mode &&& 0o111 ≠ 0) := by
  refine ⟨?_, ?_, ?_, ?_, ?_⟩
  · intro hd
    simp [classify_suffix, hd]
  · intro hd hs
    simp [classify_suffix, hd, hs]
  · intro hd hs hm
    simp [classify_suffix, is_executable, hd, hs, hm]
  · intro hd hs hm
    simp [classify_suffix, is_executable, hd, hs, hm]
  · intro h
    cases hd : it.meta.is_dir
    · cases hs : it.is_symlink
      · by_cases hm : it.meta.mode &&& 0o111 = 0
        · rw [classify_suffix] at h
          simp [hd, hs, is_executable, hm] at h
        · exact ⟨rfl, rfl, hm⟩
      · rw [classify_suffix] at h
        simp [hd, hs] at h
    · rw [classify_suffix] at h
      simp [hd] at h

/-- Witness for C9 at concrete items: a directory (suffix `/`), an
executable-bit symlink (suffix `@`), an executable regular file (suffix `*`)
and a plain file (empty suffix). -/
theorem claim_c9_classify_witness :
    (itemDirB.meta.is_dir = true ∧ classify_suffix itemDirB = ("/")) ∧
    (itemLnk.meta.is_dir = false ∧ itemLnk.is_symlink = true ∧
      itemLnk.meta.mode &&& 0o111 ≠ 0 ∧ classify_suffix itemLnk = ("@")) ∧
    (itemExe.meta.is_dir = false ∧ itemExe.is_symlink = false ∧
      itemExe.meta.mode &&& 0o111 ≠ 0 ∧ classify_suffix itemExe = ("*")) ∧
    (itemFileA.meta.is_dir = false ∧ itemFileA.is_symlink = false ∧
      itemFileA.meta.mode &&& 0o111 = 0 ∧ classify_suffix itemFileA = ("")) := by
  refine ⟨⟨rfl, (claim_c9_classify itemDirB).1 rfl⟩,
    ⟨rfl, rfl, by decide, (claim_c9_classify itemLnk).2.1 rfl rfl⟩,
    ⟨rfl, rfl, by decide, (claim_c9_classify itemExe).2.2.1 rfl rfl (by decide)⟩,
    ⟨rfl, rfl, by decide, (claim_c9_classify itemFileA).2.2.2.1 rfl rfl (by decide)⟩⟩

/-- C10: a modification time strictly before the Unix epoch yields sort key
0, the same value as an unavailable modification time, so with sort-by-time
active (and the dirs-first pre-key not intercepting) two such entries
compare purely by the name tiebreak. -/
theorem claim_c10_pre_epoch (meta : Metadata) (args : Args) (a b : Item)
    (t : Int) :
    (meta.modified = some t → t < 0 → mtime meta = 0) ∧
    (meta.modified = none → mtime meta = 0) ∧
    (args.dirs_first = false → args.sort_size = false → args.sort_time = true →
      mtime a.meta = 0 → mtime b.meta = 0 →
      compare_items a b args = cmp_name a.file_name.toList b.file_name.toList) := by
  refine ⟨?_, ?_, ?_⟩
  · intro h ht
    rw [mtime, h]
    simp [Option.bind, ht]
  · intro h
    rw [mtime, h]
    rfl
  · intro hd hs ht ha hb
    simp [compare_items, hd, hs, ht, ha, hb, nat_compare_zero_zero]

/-- Witness for C10: a pre-epoch entry and an unavailable-mtime entry both
have sort key 0, and under sort-by-time they compare purely by name. -/
theorem claim_c10_pre_epoch_witness :
    itemPreA.meta.modified = some (-3) ∧ ((-3 : Int) < 0) ∧
    mtime itemPreA.meta = 0 ∧
    itemNoneB.meta.modified = none ∧ mtime itemNoneB.meta = 0 ∧
    (exArgsTime.dirs_first = false ∧ exArgsTime.sort_size = false ∧
      exArgsTime.sort_time = true) ∧
    compare_items itemPreA itemNoneB exArgsTime =
      cmp_name itemPreA.file_name.toList itemNoneB.file_name.toList := by
  have h := claim_c10_pre_epoch itemPreA.meta exArgsTime itemPreA itemNoneB (-3)
  have h2 := claim_c10_pre_epoch itemNoneB.meta exArgsTime itemPreA itemNoneB (-3)
  refine ⟨rfl, by decide, h.1 rfl (by decide), rfl, h2.2.1 rfl, ⟨rfl, rfl, rfl⟩, ?_⟩
  exact h.2.2 rfl rfl rfl (h.1 rfl (by decide)) (h2.2.1 rfl)

/-- C2 (amended): with directories-first enabled and reverse disabled, for
any secondary sort key and every collection of entries, no non-directory
precedes any directory in the output order of `sort_items` (which is the
order `print_items` renders): every entry sitting before a directory is
itself a directory. -/
theorem claim_c2_dirs_first (args : Args) (items : List Item)
    (hd : args.dirs_first = true) (hr : args.reverse = false) :
    (sort_items items args).Pairwise fun a b =>
      b.meta.is_dir = true → a.meta.is_dir = true := by
  rw [sort_items]
  simp only [hr, Bool.false_eq_true, if_false]
  refine (mergeSort_compare_items_pairwise items args).imp ?_
  intro a b hab hbd
  by_contra had
  simp only [Bool.not_eq_true] at had
  exact hab (by simp [compare_items, hd, had, hbd])

/-- Witness for C2 at a concrete collection (a file and a directory) with
directories-first set and reverse unset. -/
theorem claim_c2_dirs_first_witness :
    exArgsDF.dirs_first = true ∧ exArgsDF.reverse = false ∧
    (sort_items [itemFileA, itemDirB] exArgsDF).Pairwise fun a b =>
      b.meta.is_dir = true → a.meta.is_dir = true :=
  ⟨rfl, rfl, claim_c2_dirs_first exArgsDF [itemFileA, itemDirB] rfl rfl⟩

/-- C2 counterexample: with directories-first combined with reverse — one of
the option combinations the claim quantifies over — sorting a directory and a
file yields the non-directory first, so a non-directory does precede a
directory in the rendered sequence. -/
theorem claim_c2_counterexample :
    exArgsDFRev.dirs_first = true ∧
    sort_items [itemDirB, itemFileA] exArgsDFRev = [itemFileA, itemDirB] ∧
    itemFileA.meta.is_dir = false ∧ itemDirB.meta.is_dir = true := by
  refine ⟨rfl, ?_, rfl, rfl⟩
  rw [sort_items]
  rw [List.mergeSort_of_sorted (by
    simp only [List.pairwise_cons, List.mem_singleton, List.not_mem_nil]
    constructor
    · intro b hb
      subst hb
      rfl
    · simp)]
  rfl

/-- C6: the long-format symlink annotation.  For a symlink whose target read
succeeds the line is the base line (the one produced when no target is
readable) with " -> <target>" appended; for a symlink whose target read
fails nothing is appended and the function still returns a line (silent,
non-fatal); for a non-symlink the line never depends on `read_link` and
nothing is appended. -/
theorem claim_c6_symlink (env : FsEnv) (it : Item) (args : Args) (uc : Bool) :
    (∀ t, it.is_symlink = true → env.read_link it.path = some t →
      format_long env it args uc =
        format_long { env with read_link := fun _ => none } it args uc ++
          ((" -> ") ++ t)) ∧
    (it.is_symlink = true → env.read_link it.path = none →
      format_long env it args uc =
        format_long { env with read_link := fun _ => none } it args uc) ∧
    (it.is_symlink = false →
      format_long env it args uc =
        format_long { env with read_link := fun _ => none } it args uc) := by
  refine ⟨?_, ?_, ?_⟩
  · intro t hs hr
    simp [format_long, hs, hr, String.append_assoc]
  · intro hs hr
    simp [format_long, hs, hr]
  · intro hs
    simp [format_long, hs]

/-- Witness for C6: a symlink with readable target gets the annotation, a
symlink with unreadable target and a plain file get the bare line. -/
theorem claim_c6_symlink_witness :
    (itemLnk.is_symlink = true ∧ exEnv.read_link itemLnk.path = some ("target") ∧
      format_long exEnv itemLnk argsOff false =
        format_long { exEnv with read_link := fun _ => none } itemLnk argsOff
          false ++ ((" -> ") ++ ("target"))) ∧
    (itemLnkBad.is_symlink = true ∧ exEnv.read_link itemLnkBad.path = none ∧
      format_long exEnv itemLnkBad argsOff false =
        format_long { exEnv with read_link := fun _ => none } itemLnkBad argsOff
          false) ∧
    (itemFileA.is_symlink = false ∧
      format_long exEnv itemFileA argsOff false =
        format_long { exEnv with read_link := fun _ => none } itemFileA argsOff
          false) :=
  ⟨⟨rfl, rfl, (claim_c6_symlink exEnv itemLnk argsOff false).1 ("target") rfl rfl⟩,
    ⟨rfl, rfl, (claim_c6_symlink exEnv itemLnkBad argsOff false).2.1 rfl rfl⟩,
    ⟨rfl, (claim_c6_symlink exEnv itemFileA argsOff false).2.2 rfl⟩⟩

/-- C8: the long-format line is the single-space-separated assembly
"permission string, link count right-aligned to at least 2, owner
left-aligned to at least 8, group left-aligned to at least 8, size field
right-aligned to at least 8, modification time, formatted name, symlink
annotation"; each alignment pads with spaces on the stated side to length
max(width, value length), so the width is a minimum that also accommodates
values longer than the padding width. -/
theorem claim_c8_long_line (env : FsEnv) (it : Item) (args : Args) (uc : Bool) :
    format_long env it args uc =
      format_permissions it.meta ++ (" ") ++ pad_left 2 (format_nlink it.meta) ++
        (" ") ++ pad_right 8 (format_owner it.meta) ++ (" ") ++
        pad_right 8 (format_group it.meta) ++ (" ") ++
        pad_left 8 (format_size_field it args) ++ (" ") ++
        format_mtime env.render_time env.now it.meta ++ (" ") ++
        format_name it args uc ++
        (if it.is_symlink then
          match env.read_link it.path with
          | some target => (" -> ") ++ target
          | none => ("")
        else ("")) ∧
    (∀ w s, (pad_left w s).length = max w s.length ∧
      (pad_right w s).length = max w s.length) ∧
    (∀ w s, pad_left w s = String.mk (List.replicate (w - s.length) (' ')) ++ s ∧
      pad_right w s = s ++ String.mk (List.replicate (w - s.length) (' '))) := by
  refine ⟨rfl, ?_, fun w s => ⟨rfl, rfl⟩⟩
  intro w s
  constructor <;> simp [pad_left, pad_right] <;> omega

/-- C1 (amended): any per-path processing failure aborts the whole run with a
non-zero exit status whatever paths follow (the `?` chain never consults
them); in non-recursive mode the per-path processing fails when the
top-level stat fails, when the directory read fails, and when the stat of an
included directory entry fails.  In recursive mode, however, a failure to
stat the top-level path argument itself is silently ignored: the path
contributes no output and the run continues (and can exit zero). -/
theorem claim_c1_error_propagation (env : FsEnv) (args : Args) (istty : Bool)
    (p : String) :
    (p ∈ args.paths →
      process_path env p args (resolve_color args istty) = .error () →
      main_run env args istty = .error ()) ∧
    (args.recursive = false → statNode (env.fs p) = none →
      process_path env p args (resolve_color args istty) = .error ()) ∧
    (∀ m, args.recursive = false → statNode (env.fs p) = some m →
      m.is_dir = true → readDir (env.fs p) = none →
      process_path env p args (resolve_color args istty) = .error ()) ∧
    (∀ m entries name child, args.recursive = false →
      statNode (env.fs p) = some m → m.is_dir = true →
      readDir (env.fs p) = some entries → (name, child) ∈ entries →
      should_include name args = true → statNode child = none →
      process_path env p args (resolve_color args istty) = .error ()) ∧
    (args.recursive = true → statNode (env.fs p) = none →
      process_path env p args (resolve_color args istty) = .ok []) := by
  refine ⟨?_, ?_, ?_, ?_, ?_⟩
  · exact fun hmem herr => main_run_error hmem herr
  · intro hrec hstat
    rw [process_path, hrec]
    simp only [Bool.false_eq_true, if_false]
    rw [list_single_dir_or_file, hstat]
  · intro m hrec hstat hdir hread
    rw [process_path, hrec]
    simp only [Bool.false_eq_true, if_false]
    rw [list_single_dir_or_file, hstat]
    simp only [hdir, if_true]
    exact list_dir_read_error hread
  · intro m entries name child hrec hstat hdir hread hmem hinc hcstat
    rw [process_path, hrec]
    simp only [Bool.false_eq_true, if_false]
    rw [list_single_dir_or_file, hstat]
    simp only [hdir, if_true]
    exact list_dir_entry_error hread hmem hinc hcstat
  · intro hrec hstat
    have hbad := statNode_eq_none_iff.mp hstat
    rw [process_path, hrec]
    simp only [if_true]
    rw [list_recursive, hstat, hbad]
    rfl

/-- Witness for C1 at the concrete environment: non-recursively, the stat
failure at `x`, the directory-read failure at `d` and the entry-stat failure
inside `e` each make per-path processing fail, and the failure at `x` makes
the whole run exit non-zero; recursively, the unstattable `x` is skipped
with no output. -/
theorem claim_c1_error_propagation_witness :
    (("x") ∈ exArgsNonrec.paths ∧
      process_path exEnv ("x") exArgsNonrec (resolve_color exArgsNonrec false) =
        .error () ∧
      main_run exEnv exArgsNonrec false = .error ()) ∧
    process_path exEnv ("d") exArgsNonrec (resolve_color exArgsNonrec false) =
      .error () ∧
    process_path exEnv ("e") exArgsNonrec (resolve_color exArgsNonrec false) =
      .error () ∧
    process_path exEnv ("x") exArgsRec (resolve_color exArgsRec false) =
      .ok [] := by
  have h1 := claim_c1_error_propagation exEnv exArgsNonrec false ("x")
  have hx : process_path exEnv ("x") exArgsNonrec
      (resolve_color exArgsNonrec false) = .error () := h1.2.1 rfl rfl
  have hmem : ("x") ∈ exArgsNonrec.paths := List.mem_cons_self _ _
  have hd := (claim_c1_error_propagation exEnv exArgsNonrec false ("d")).2.2.1
    metaDir rfl rfl rfl rfl
  have he := (claim_c1_error_propagation exEnv exArgsNonrec false
    ("e")).2.2.2.1 metaDir [(("f"), FsNode.bad)] ("f") FsNode.bad rfl rfl rfl
    rfl (List.mem_cons_self _ _) rfl rfl
  have hr := (claim_c1_error_propagation exEnv exArgsRec false ("x")).2.2.2.2
    rfl rfl
  exact ⟨⟨hmem, hx, h1.1 hmem hx⟩, hd, he, hr⟩

/-- C1 counterexample: in recursive mode with top-level paths `x` (whose
stat fails) and `y`, the run exits zero (`.ok`) and still lists `y` — the
top-level stat failure neither terminates the run with a non-zero status nor
stops later path arguments from being processed. -/
theorem claim_c1_counterexample :
    statNode (exEnv.fs ("x")) = none ∧ exArgsRec.recursive = true ∧
    main_run exEnv exArgsRec false = .ok [("x:"), (""), ("y:"), ("y")] :=
  ⟨rfl, rfl, rfl⟩
